import Mathlib

/-!
# Verification of the hazard hotspot clustering component of coast-alert

This file embeds the grid-based hotspot clustering algorithm of
`src/components/HazardMap.tsx` (the `calculateHotspots` closure, lines 196-234,
and the `nearbyHotspot` lookup, lines 485-492) as executable Lean definitions
and proves the specified properties about them.

Modelling conventions:
* JavaScript numbers (finite IEEE-754 doubles) are embedded as rationals `ℚ`;
  `Math.floor` becomes `Int.floor`.  All inputs the claims quantify over are
  finite in-range coordinates, where double arithmetic is exact enough that the
  structural properties proved here are representation-independent.
* The JS object `grid` keyed by the template string `` `${gridLat},${gridLng}` ``
  is embedded as an association list keyed by the pair `(gridLat, gridLng)`;
  this is faithful because JS number-to-string conversion is injective and the
  first component's string cannot contain the separator comma, so the key
  string determines the pair.  `Object.values` enumerates such (non-index)
  string keys in insertion order, which the association list preserves.
* The React state update `setHotspots` is modelled by explicit state passing
  in `calculateHotspotsUpdate`.
-/

set_option autoImplicit false

namespace CoastAlert

/-- Severity of a hazard report, `'low' | 'medium' | 'high' | 'critical'`
from `src/types/hazard.ts`. -/
inductive Severity where
  | low
  | medium
  | high
  | critical
deriving DecidableEq

/-- A hazard report as consumed by the clusterer: the location (`location.lat`,
`location.lng`, embedded as `ℚ`) and the severity.  Every other field of the
TypeScript `HazardReport` (reporter identity, hazard type, description, status,
timestamps, ...) is opaque payload that `calculateHotspots` never inspects;
the `payload` field stands for all of them. -/
structure HazardReport where
  lat : ℚ
  lng : ℚ
  severity : Severity
  payload : String
deriving DecidableEq

/-- The `Hotspot` interface of `HazardMap.tsx` (lines 40-46): exactly the five
fields `lat`, `lng`, `intensity`, `radius`, `reportCount`.  Note the source
record carries no severity field. -/
structure Hotspot where
  lat : ℚ
  lng : ℚ
  intensity : ℕ
  radius : ℚ
  reportCount : ℕ
deriving DecidableEq

/-- `const gridSize = 0.1` (line 200): grid size in degrees. -/
def gridSize : ℚ := 1 / 10

/-- `const minReports = 2` (line 201): minimum reports to form a hotspot. -/
def minReports : ℕ := 2

/-- The grid key of a report (lines 207-209):
`gridLat = Math.floor(lat / gridSize) * gridSize` and likewise for `lng`;
the pair embeds the key string `` `${gridLat},${gridLng}` ``. -/
def cellKey (r : HazardReport) : ℚ × ℚ :=
  ((⌊r.lat / gridSize⌋ : ℚ) * gridSize, (⌊r.lng / gridSize⌋ : ℚ) * gridSize)

/-- One value of the JS `grid` object: `{ lat: gridLat + gridSize/2,
lng: gridLng + gridSize/2, reports: [...] }` (line 212). -/
structure GridCell where
  lat : ℚ
  lng : ℚ
  reports : List HazardReport
deriving DecidableEq

/-- `grid[key].reports.push(report)` applied entrywise: the entry whose key is
`cellKey r` gets `r` appended to its report list, all other entries are left
unchanged. -/
def bumpCell (r : HazardReport) (e : (ℚ × ℚ) × GridCell) :
    (ℚ × ℚ) × GridCell :=
  if e.1 = cellKey r then
    (e.1, { lat := e.2.lat, lng := e.2.lng, reports := e.2.reports ++ [r] })
  else e

/-- One iteration of the `reports.forEach` loop (lines 206-215): if the key is
already present, push the report onto that cell's list; otherwise append a
fresh cell (insertion order of keys is preserved, as in a JS object). -/
def addToGrid (grid : List ((ℚ × ℚ) × GridCell)) (r : HazardReport) :
    List ((ℚ × ℚ) × GridCell) :=
  if ∃ e ∈ grid, e.1 = cellKey r then
    grid.map (bumpCell r)
  else
    grid ++ [(cellKey r,
      { lat := (cellKey r).1 + gridSize / 2,
        lng := (cellKey r).2 + gridSize / 2,
        reports := [r] })]

/-- The whole `reports.forEach` loop: build the grid from the report list. -/
def buildGrid (reports : List HazardReport) : List ((ℚ × ℚ) × GridCell) :=
  reports.foldl addToGrid []

/-- The `severity` local computed for a qualifying cell (lines 220-221):
`cell.reports.some(r => r.severity === 'critical') ? 'critical' :
 cell.reports.some(r => r.severity === 'high') ? 'high' : 'medium'`.
The source computes this value for every emitted hotspot but does not store it
on the `Hotspot` record. -/
def cellSeverity (rs : List HazardReport) : Severity :=
  if ∃ r ∈ rs, r.severity = Severity.critical then Severity.critical
  else if ∃ r ∈ rs, r.severity = Severity.high then Severity.high
  else Severity.medium

/-- The pure core of `calculateHotspots` (lines 196-234): build the grid, then
for every cell with at least `minReports` reports emit one hotspot with
`intensity = reportCount = cell.reports.length` and
`radius = Math.min(cell.reports.length * 2000, 10000)`, centers at the cell
midpoint, in `Object.values` (= insertion) order. -/
def calculateHotspots (reports : List HazardReport) : List Hotspot :=
  (buildGrid reports).filterMap fun e =>
    if minReports ≤ e.2.reports.length then
      some { lat := e.2.lat
             lng := e.2.lng
             intensity := e.2.reports.length
             radius := min ((e.2.reports.length : ℚ) * 2000) 10000
             reportCount := e.2.reports.length }
    else none

/-- The effect of one invocation of `calculateHotspots` on the `hotspots`
React state: `if (reports.length === 0) return;` leaves the state unchanged
(line 197), otherwise `setHotspots(hotspots)` (line 233) overwrites it with
the freshly computed list. -/
def calculateHotspotsUpdate (reports : List HazardReport)
    (hotspots : List Hotspot) : List Hotspot :=
  if reports.length = 0 then hotspots else calculateHotspots reports

/-- A point `{lat, lng}` (the selected report's location in the source). -/
structure GeoPoint where
  lat : ℚ
  lng : ℚ
deriving DecidableEq

/-- The squared degree-space distance computed inside `hotspots.find`
(lines 487-490): `Math.pow(hotspot.lat - point.lat, 2) +
Math.pow(hotspot.lng - point.lng, 2)`. -/
def hotspotDistSq (h : Hotspot) (p : GeoPoint) : ℚ :=
  (h.lat - p.lat) ^ 2 + (h.lng - p.lng) ^ 2

/-- `nearbyHotspot` (lines 486-492): the first hotspot whose distance
`Math.sqrt(hotspotDistSq) < 0.05`.  Since the squared distance is nonnegative
and `0.05 > 0`, the comparison `Math.sqrt(d) < 0.05` is exactly `d < 0.0025 =
1/400`; the theorem `nearbyHotspot_spec` below restates the test through
`Real.sqrt` and this equivalence is proved in `sqrt_lt_threshold_iff`. -/
def nearbyHotspot (p : GeoPoint) (hotspots : List Hotspot) : Option Hotspot :=
  hotspots.find? fun h => decide (hotspotDistSq h p < 1 / 400)

/-- Report membership test for a grid cell, as a Boolean predicate. -/
def inCell (k : ℚ × ℚ) (r : HazardReport) : Bool := cellKey r = k

/-- Number of input reports that fall in the cell with key `k`. -/
def cellCount (reports : List HazardReport) (k : ℚ × ℚ) : ℕ :=
  (reports.filter (inCell k)).length

/-- Loop invariant of the `reports.forEach` grid-building loop: after
consuming the prefix `consumed`, the association list `g` has pairwise
distinct keys, holds exactly the keys of the consumed reports, and each
cell stores the consumed reports of its key (in input order) together with
the cell midpoint. -/
def GridInv (consumed : List HazardReport)
    (g : List ((ℚ × ℚ) × GridCell)) : Prop :=
  (g.map Prod.fst).Nodup ∧
  (∀ k : ℚ × ℚ, (∃ c, (k, c) ∈ g) ↔ ∃ r ∈ consumed, cellKey r = k) ∧
  ∀ k c, (k, c) ∈ g →
    c.reports = consumed.filter (inCell k) ∧
    c.lat = k.1 + gridSize / 2 ∧ c.lng = k.2 + gridSize / 2

/-- The hotspot that `calculateHotspots` emits for the cell with key `k`
(derived shape: the emitted record depends on the cell only through its key
and its report count). -/
def hotspotOfCell (reports : List HazardReport) (k : ℚ × ℚ) : Hotspot :=
  { lat := k.1 + gridSize / 2
    lng := k.2 + gridSize / 2
    intensity := cellCount reports k
    radius := min ((cellCount reports k : ℚ) * 2000) 10000
    reportCount := cellCount reports k }

/-- Latitude of the density-weighted centroid of a report list — the
alternative center the spec explicitly says is NOT used. -/
def reportCentroidLat (rs : List HazardReport) : ℚ :=
  (rs.map HazardReport.lat).sum / rs.length

/-- Longitude of the density-weighted centroid of a report list. -/
def reportCentroidLng (rs : List HazardReport) : ℚ :=
  (rs.map HazardReport.lng).sum / rs.length

/-- Concrete report at `(12.95, 77.55)`, severity critical (Scenario A of
the spec). -/
def demoReportA : HazardReport :=
  { lat := 259 / 20, lng := 1551 / 20, severity := Severity.critical
    payload := "A" }

/-- Concrete report at `(12.96, 77.56)`, severity low (Scenario A of the
spec); falls in the same `0.1°` cell as `demoReportA`. -/
def demoReportB : HazardReport :=
  { lat := 324 / 25, lng := 1939 / 25, severity := Severity.low
    payload := "B" }

/-- Scenario A input: two reports in the cell with key `(12.9, 77.5)`. -/
def demoReports : List HazardReport := [demoReportA, demoReportB]

/-- The grid key shared by the two demo reports. -/
def demoKey : ℚ × ℚ := (129 / 10, 775 / 10)

/-- The single hotspot produced by `demoReports`: center `(12.95, 77.55)`,
intensity `2`, radius `min (2 * 2000) 10000 = 4000`. -/
def demoHotspot : Hotspot :=
  { lat := 259 / 20, lng := 1551 / 20, intensity := 2, radius := 4000
    reportCount := 2 }

/-- A low-severity report in the demo cell. -/
def lowReportA : HazardReport :=
  { lat := 259 / 20, lng := 1551 / 20, severity := Severity.low
    payload := "LA" }

/-- A second low-severity report in the demo cell. -/
def lowReportB : HazardReport :=
  { lat := 324 / 25, lng := 1939 / 25, severity := Severity.low
    payload := "LB" }

/-- Scenario C-style input: a qualifying cell containing only low-severity
reports. -/
def lowReports : List HazardReport := [lowReportA, lowReportB]

/-- The grid cell that `buildGrid lowReports` stores under `demoKey`. -/
def lowCell : GridCell :=
  { lat := 259 / 20, lng := 1551 / 20, reports := lowReports }

/-- A query point exactly at the demo hotspot's center (Scenario D of the
spec). -/
def demoPoint : GeoPoint := { lat := 259 / 20, lng := 1551 / 20 }

theorem bumpCell_fst (r : HazardReport) (e : (ℚ × ℚ) × GridCell) :
    (bumpCell r e).1 = e.1 := by
  unfold bumpCell; split <;> rfl

theorem gridInv_addToGrid {consumed : List HazardReport}
    {g : List ((ℚ × ℚ) × GridCell)} (r : HazardReport)
    (hinv : GridInv consumed g) : GridInv (consumed ++ [r]) (addToGrid g r) := by
  obtain ⟨hnd, hkeys, hent⟩ := hinv
  by_cases hex : ∃ e ∈ g, e.1 = cellKey r
  · rw [addToGrid, if_pos hex]
    have hkeyseq : (g.map (bumpCell r)).map Prod.fst = g.map Prod.fst := by
      rw [List.map_map]
      exact List.map_congr_left fun e _ => bumpCell_fst r e
    have hmemkeys : ∀ k : ℚ × ℚ,
        (∃ c, (k, c) ∈ g.map (bumpCell r)) ↔ ∃ c, (k, c) ∈ g := by
      intro k
      constructor
      · rintro ⟨c, hc⟩
        rw [List.mem_map] at hc
        obtain ⟨e, he, hbe⟩ := hc
        have hek : e.1 = k := by rw [← bumpCell_fst r e, hbe]
        have : (k, e.2) = e := by rw [← hek]
        exact ⟨e.2, this ▸ he⟩
      · rintro ⟨c, hc⟩
        refine ⟨(bumpCell r (k, c)).2, ?_⟩
        rw [List.mem_map]
        refine ⟨(k, c), hc, ?_⟩
        have := bumpCell_fst r (k, c)
        calc bumpCell r (k, c)
            = ((bumpCell r (k, c)).1, (bumpCell r (k, c)).2) := rfl
          _ = (k, (bumpCell r (k, c)).2) := by rw [this]
    refine ⟨by rw [hkeyseq]; exact hnd, ?_, ?_⟩
    · intro k
      rw [hmemkeys k, hkeys k]
      constructor
      · rintro ⟨r', hr', hkr'⟩
        exact ⟨r', List.mem_append.mpr (Or.inl hr'), hkr'⟩
      · rintro ⟨r', hr', hkr'⟩
        rcases List.mem_append.mp hr' with h | h
        · exact ⟨r', h, hkr'⟩
        · have hrr : r' = r := by simpa using h
          subst hrr
          obtain ⟨e, he, hek⟩ := hex
          have hek' : e.1 = k := hek.trans hkr'
          have : (k, e.2) = e := by rw [← hek']
          exact (hkeys k).mp ⟨e.2, this ▸ he⟩
    · intro k c hc
      rw [List.mem_map] at hc
      obtain ⟨e, he, hbe⟩ := hc
      have he' : (e.1, e.2) ∈ g := he
      obtain ⟨hrep, hlat, hlng⟩ := hent e.1 e.2 he'
      by_cases hek : e.1 = cellKey r
      · have hbe' : bumpCell r e
            = (e.1, { lat := e.2.lat, lng := e.2.lng,
                      reports := e.2.reports ++ [r] }) := by
          rw [bumpCell, if_pos hek]
        rw [hbe'] at hbe
        obtain ⟨hk, hc'⟩ := Prod.ext_iff.mp hbe
        subst hk
        subst hc'
        have hr : inCell e.1 r = true := by
          simp only [inCell, decide_eq_true_eq]; exact hek.symm
        refine ⟨?_, hlat, hlng⟩
        show e.2.reports ++ [r] = _
        rw [List.filter_append, ← hrep, List.filter_cons, if_pos hr]
        rfl
      · have hbe' : bumpCell r e = e := by rw [bumpCell, if_neg hek]
        rw [hbe'] at hbe
        obtain ⟨hk, hc'⟩ := Prod.ext_iff.mp hbe
        subst hk
        subst hc'
        have hr : inCell e.1 r = false := by
          simp only [inCell, decide_eq_false_iff_not]
          exact fun hh => hek hh.symm
        refine ⟨?_, hlat, hlng⟩
        rw [hrep, List.filter_append, List.filter_cons, if_neg (by simp [hr])]
        simp
  · rw [addToGrid, if_neg hex]
    have hknotin : cellKey r ∉ g.map Prod.fst := by
      intro hmem
      rw [List.mem_map] at hmem
      obtain ⟨e, he, hek⟩ := hmem
      exact hex ⟨e, he, hek⟩
    have hnocons : ∀ r' ∈ consumed, cellKey r' ≠ cellKey r := by
      intro r' hr' hcontra
      obtain ⟨c, hc⟩ := (hkeys (cellKey r)).mpr ⟨r', hr', hcontra⟩
      exact hknotin (List.mem_map.mpr ⟨(cellKey r, c), hc, rfl⟩)
    refine ⟨?_, ?_, ?_⟩
    · rw [List.map_append, List.nodup_append]
      refine ⟨hnd, by simp, ?_⟩
      intro a ha hb
      simp only [List.map_cons, List.map_nil, List.mem_singleton] at hb
      subst hb
      exact hknotin ha
    · intro k
      constructor
      · rintro ⟨c, hc⟩
        rcases List.mem_append.mp hc with h | h
        · obtain ⟨r', hr', hkr'⟩ := (hkeys k).mp ⟨c, h⟩
          exact ⟨r', List.mem_append.mpr (Or.inl hr'), hkr'⟩
        · have hk : k = cellKey r :=
            (Prod.ext_iff.mp (List.mem_singleton.mp h)).1
          exact ⟨r, List.mem_append.mpr (Or.inr (List.mem_singleton.mpr rfl)),
            hk.symm⟩
      · rintro ⟨r', hr', hkr'⟩
        rcases List.mem_append.mp hr' with h | h
        · obtain ⟨c, hc⟩ := (hkeys k).mpr ⟨r', h, hkr'⟩
          exact ⟨c, List.mem_append.mpr (Or.inl hc)⟩
        · have hrr : r' = r := by simpa using h
          subst hrr
          subst hkr'
          exact ⟨_, List.mem_append.mpr (Or.inr (List.mem_singleton.mpr rfl))⟩
    · intro k c hc
      rcases List.mem_append.mp hc with h | h
      · obtain ⟨hrep, hlat, hlng⟩ := hent k c h
        have hkne : cellKey r ≠ k := by
          intro hcontra
          exact hknotin (hcontra ▸ List.mem_map.mpr ⟨(k, c), h, rfl⟩)
        have : inCell k r = false := by
          simp only [inCell, decide_eq_false_iff_not]; exact hkne
        refine ⟨?_, hlat, hlng⟩
        rw [hrep, List.filter_append]; simp [this]
      · obtain ⟨hk, hc'⟩ := Prod.ext_iff.mp (List.mem_singleton.mp h)
        subst hk
        subst hc'
        have hfilter : consumed.filter (inCell (cellKey r)) = [] := by
          rw [List.filter_eq_nil_iff]
          intro r' hr'
          simp only [inCell, decide_eq_true_eq]
          exact fun hcontra => hnocons r' hr' hcontra
        have hr : inCell (cellKey r) r = true := by
          simp only [inCell, decide_eq_true_eq]
        refine ⟨?_, rfl, rfl⟩
        rw [List.filter_append, hfilter, List.filter_cons, if_pos hr]
        rfl

theorem gridInv_foldl :
    ∀ (rest consumed : List HazardReport) (g : List ((ℚ × ℚ) × GridCell)),
      GridInv consumed g → GridInv (consumed ++ rest) (rest.foldl addToGrid g)
  | [], consumed, g, h => by simpa using h
  | r :: rest, consumed, g, h => by
    have h' := gridInv_addToGrid r h
    have h'' := gridInv_foldl rest (consumed ++ [r]) (addToGrid g r) h'
    simpa [List.append_assoc] using h''

theorem gridInv_buildGrid (reports : List HazardReport) :
    GridInv reports (buildGrid reports) := by
  have h0 : GridInv [] [] := by
    refine ⟨List.nodup_nil, fun k => ?_, fun k c hc => ?_⟩
    · simp
    · simp at hc
  simpa using gridInv_foldl reports [] [] h0

theorem buildGrid_keys_nodup (reports : List HazardReport) :
    ((buildGrid reports).map Prod.fst).Nodup :=
  (gridInv_buildGrid reports).1

theorem buildGrid_key_iff (reports : List HazardReport) (k : ℚ × ℚ) :
    (∃ c, (k, c) ∈ buildGrid reports) ↔ ∃ r ∈ reports, cellKey r = k :=
  (gridInv_buildGrid reports).2.1 k

theorem buildGrid_entry {reports : List HazardReport} {k : ℚ × ℚ}
    {c : GridCell} (h : (k, c) ∈ buildGrid reports) :
    c.reports = reports.filter (inCell k) ∧
    c.lat = k.1 + gridSize / 2 ∧ c.lng = k.2 + gridSize / 2 :=
  (gridInv_buildGrid reports).2.2 k c h

theorem mem_keys_iff {reports : List HazardReport} {k : ℚ × ℚ} :
    k ∈ (buildGrid reports).map Prod.fst ↔ ∃ r ∈ reports, cellKey r = k := by
  rw [List.mem_map]
  constructor
  · rintro ⟨e, he, rfl⟩
    exact (buildGrid_key_iff reports e.1).mp ⟨e.2, he⟩
  · intro h
    obtain ⟨c, hc⟩ := (buildGrid_key_iff reports k).mpr h
    exact ⟨(k, c), hc, rfl⟩

theorem exists_report_of_cellCount_pos {reports : List HazardReport}
    {k : ℚ × ℚ} (h : 0 < cellCount reports k) :
    ∃ r ∈ reports, cellKey r = k := by
  rw [cellCount, List.length_pos] at h
  obtain ⟨r, hr⟩ := List.exists_mem_of_ne_nil _ h
  rw [List.mem_filter] at hr
  refine ⟨r, hr.1, ?_⟩
  have := hr.2
  rwa [inCell, decide_eq_true_eq] at this

theorem calculateHotspots_eq (reports : List HazardReport) :
    calculateHotspots reports =
      ((buildGrid reports).map Prod.fst).filterMap fun k =>
        if minReports ≤ cellCount reports k then
          some (hotspotOfCell reports k)
        else none := by
  rw [calculateHotspots, List.filterMap_map]
  apply List.filterMap_congr
  intro e he
  have he' : (e.1, e.2) ∈ buildGrid reports := he
  obtain ⟨hrep, hlat, hlng⟩ := buildGrid_entry he'
  have hlen : e.2.reports.length = cellCount reports e.1 := by
    rw [hrep, cellCount]
  simp only [Function.comp_apply, hlen, hlat, hlng, hotspotOfCell]

theorem mem_calculateHotspots {reports : List HazardReport} {h : Hotspot} :
    h ∈ calculateHotspots reports ↔
      ∃ k, minReports ≤ cellCount reports k ∧ h = hotspotOfCell reports k := by
  rw [calculateHotspots_eq, List.mem_filterMap]
  constructor
  · rintro ⟨k, hk, hfk⟩
    by_cases hc : minReports ≤ cellCount reports k
    · rw [if_pos hc] at hfk
      exact ⟨k, hc, (Option.some.inj hfk).symm⟩
    · rw [if_neg hc] at hfk
      cases hfk
  · rintro ⟨k, hc, rfl⟩
    refine ⟨k, ?_, by rw [if_pos hc]⟩
    apply mem_keys_iff.mpr
    exact exists_report_of_cellCount_pos (lt_of_lt_of_le (by norm_num [minReports]) hc)

theorem calc_demo_eval : calculateHotspots demoReports = [demoHotspot] := by
  with_unfolding_all rfl

theorem demo_mem : demoHotspot ∈ calculateHotspots demoReports := by
  rw [calc_demo_eval]
  exact List.mem_singleton.mpr rfl

theorem lowCell_mem : (demoKey, lowCell) ∈ buildGrid lowReports := by
  rw [show buildGrid lowReports = [(demoKey, lowCell)] from by
    with_unfolding_all rfl]
  exact List.mem_singleton.mpr rfl

/-- C1: for the empty input report collection, the hotspot computation
returns an empty sequence of hotspots (it is a total function: it produces a
value, and that value is the empty list). -/
theorem calculateHotspots_empty : calculateHotspots [] = [] := rfl

/-- C4: every hotspot emitted by `calculateHotspots` has
`radius = min (intensity * 2000) 10000` (the source defaults
`metersPerReport = 2000`, `maxRadiusMeters = 10000`), hence its radius never
exceeds 10000 meters, and radius is monotonically non-decreasing in intensity
across all emitted hotspots. -/
theorem hotspot_radius_spec (reports : List HazardReport) (h : Hotspot)
    (hm : h ∈ calculateHotspots reports) :
    h.radius = min ((h.intensity : ℚ) * 2000) 10000 ∧
    h.radius ≤ 10000 ∧
    ∀ (reports' : List HazardReport) (h' : Hotspot),
      h' ∈ calculateHotspots reports' → h.intensity ≤ h'.intensity →
      h.radius ≤ h'.radius := by
  obtain ⟨k, hc, rfl⟩ := mem_calculateHotspots.mp hm
  refine ⟨rfl, min_le_right _ _, ?_⟩
  intro reports' h' hm' hint
  obtain ⟨k', hc', rfl⟩ := mem_calculateHotspots.mp hm'
  simp only [hotspotOfCell] at hint ⊢
  exact min_le_min
    (mul_le_mul_of_nonneg_right (by exact_mod_cast hint) (by norm_num)) le_rfl

/-- C4 witness: the demo hotspot (intensity 2) has radius
`min (2 * 2000) 10000 = 4000 ≤ 10000`. -/
theorem hotspot_radius_spec_witness :
    demoHotspot.radius = min ((demoHotspot.intensity : ℚ) * 2000) 10000 ∧
    demoHotspot.radius ≤ 10000 :=
  ⟨(hotspot_radius_spec demoReports demoHotspot demo_mem).1,
   (hotspot_radius_spec demoReports demoHotspot demo_mem).2.1⟩

/-- C6: every emitted hotspot is centered at the geometric center of its
producing grid cell — `(cellFloorLat + gridSize/2, cellFloorLng +
gridSize/2)` where the floor values come from any contributing report — and
not at the centroid of the contributing reports (witnessed concretely:
the demo cell's hotspot center differs from the centroid of its reports). -/
theorem hotspot_center_spec :
    (∀ (reports : List HazardReport) (h : Hotspot),
      h ∈ calculateHotspots reports →
      ∃ r ∈ reports,
        cellKey r = (h.lat - gridSize / 2, h.lng - gridSize / 2) ∧
        h.lat = (⌊r.lat / gridSize⌋ : ℚ) * gridSize + gridSize / 2 ∧
        h.lng = (⌊r.lng / gridSize⌋ : ℚ) * gridSize + gridSize / 2) ∧
    (calculateHotspots demoReports = [demoHotspot] ∧
      demoHotspot.lat ≠ reportCentroidLat demoReports ∧
      demoHotspot.lng ≠ reportCentroidLng demoReports) := by
  constructor
  · intro reports h hm
    obtain ⟨k, hc, rfl⟩ := mem_calculateHotspots.mp hm
    obtain ⟨r, hr, hkr⟩ := exists_report_of_cellCount_pos
      (lt_of_lt_of_le (by norm_num [minReports]) hc)
    refine ⟨r, hr, ?_, ?_, ?_⟩
    · rw [hkr]
      refine Prod.ext_iff.mpr ⟨?_, ?_⟩ <;> (show _ = _ + gridSize / 2 - _) <;> ring
    · have hk1 : k.1 = (⌊r.lat / gridSize⌋ : ℚ) * gridSize := by
        rw [← hkr]; rfl
      show k.1 + gridSize / 2 = _
      rw [hk1]
    · have hk2 : k.2 = (⌊r.lng / gridSize⌋ : ℚ) * gridSize := by
        rw [← hkr]; rfl
      show k.2 + gridSize / 2 = _
      rw [hk2]
  · refine ⟨calc_demo_eval, ?_, ?_⟩
    · norm_num [reportCentroidLat, demoReports, demoReportA, demoReportB,
        demoHotspot]
    · norm_num [reportCentroidLng, demoReports, demoReportA, demoReportB,
        demoHotspot]

/-- C6 witness: the universally quantified part of `hotspot_center_spec`
applied to the demo input. -/
theorem hotspot_center_spec_witness :
    ∃ r ∈ demoReports,
      cellKey r = (demoHotspot.lat - gridSize / 2,
                   demoHotspot.lng - gridSize / 2) ∧
      demoHotspot.lat = (⌊r.lat / gridSize⌋ : ℚ) * gridSize + gridSize / 2 ∧
      demoHotspot.lng = (⌊r.lng / gridSize⌋ : ℚ) * gridSize + gridSize / 2 :=
  hotspot_center_spec.1 demoReports demoHotspot demo_mem

/-- C10: when the report collection is empty, `calculateHotspots` returns
before calling `setHotspots`, so the stored hotspot state is left unchanged;
hotspots computed from an earlier non-empty report set therefore persist
after the report collection becomes empty. -/
theorem calculateHotspots_empty_frame (prev : List Hotspot)
    (reports : List HazardReport) (hne : reports ≠ []) :
    calculateHotspotsUpdate [] prev = prev ∧
    calculateHotspotsUpdate reports prev = calculateHotspots reports ∧
    calculateHotspotsUpdate [] (calculateHotspotsUpdate reports prev)
      = calculateHotspots reports := by
  have hlen : ¬ reports.length = 0 := fun hh => hne (List.length_eq_zero.mp hh)
  refine ⟨rfl, ?_, ?_⟩
  · rw [calculateHotspotsUpdate, if_neg hlen]
  · show calculateHotspotsUpdate reports prev = _
    rw [calculateHotspotsUpdate, if_neg hlen]

/-- C10 witness: with previous state `[demoHotspot]` and the non-empty demo
report list, an empty-input invocation leaves the state unchanged. -/
theorem calculateHotspots_empty_frame_witness :
    calculateHotspotsUpdate [] [demoHotspot] = [demoHotspot] ∧
    calculateHotspotsUpdate demoReports [demoHotspot]
      = calculateHotspots demoReports ∧
    calculateHotspotsUpdate [] (calculateHotspotsUpdate demoReports [demoHotspot])
      = calculateHotspots demoReports :=
  calculateHotspots_empty_frame [demoHotspot] demoReports (by simp [demoReports])

/-- C2: for every qualifying grid cell (one that produces a hotspot, i.e.
holds at least `minReports` reports) the `severity` value computed at emission
time is `critical` if any contributing report is critical, else `high` if any
is high, else `medium`; in particular it is never `low`, and a qualifying cell
containing only low-severity reports gets `medium`. -/
theorem dominantSeverity_spec (reports : List HazardReport) (k : ℚ × ℚ)
    (c : GridCell) (hmem : (k, c) ∈ buildGrid reports)
    (hq : minReports ≤ c.reports.length) :
    ((∃ r ∈ c.reports, r.severity = Severity.critical) →
      cellSeverity c.reports = Severity.critical) ∧
    (¬(∃ r ∈ c.reports, r.severity = Severity.critical) →
      (∃ r ∈ c.reports, r.severity = Severity.high) →
      cellSeverity c.reports = Severity.high) ∧
    (¬(∃ r ∈ c.reports, r.severity = Severity.critical) →
      ¬(∃ r ∈ c.reports, r.severity = Severity.high) →
      cellSeverity c.reports = Severity.medium) ∧
    cellSeverity c.reports ≠ Severity.low ∧
    ((∀ r ∈ c.reports, r.severity = Severity.low) →
      cellSeverity c.reports = Severity.medium) := by
  refine ⟨?_, ?_, ?_, ?_, ?_⟩
  · intro h1
    rw [cellSeverity, if_pos h1]
  · intro h1 h2
    rw [cellSeverity, if_neg h1, if_pos h2]
  · intro h1 h2
    rw [cellSeverity, if_neg h1, if_neg h2]
  · rw [cellSeverity]
    split_ifs <;> decide
  · intro hall
    have h1 : ¬∃ r ∈ c.reports, r.severity = Severity.critical := by
      rintro ⟨r, hr, hs⟩
      rw [hall r hr] at hs
      cases hs
    have h2 : ¬∃ r ∈ c.reports, r.severity = Severity.high := by
      rintro ⟨r, hr, hs⟩
      rw [hall r hr] at hs
      cases hs
    rw [cellSeverity, if_neg h1, if_neg h2]

/-- C2 witness: the qualifying demo cell holding only low-severity reports
gets severity `medium`, never `low`. -/
theorem dominantSeverity_spec_witness :
    cellSeverity lowCell.reports ≠ Severity.low ∧
    cellSeverity lowCell.reports = Severity.medium := by
  have h := dominantSeverity_spec lowReports demoKey lowCell lowCell_mem
    (by decide)
  exact ⟨h.2.2.2.1, h.2.2.2.2 (by decide)⟩

/-- C5: each report is assigned to the grid cell whose key (lower-left
corner) is `(floor(lat / gridSize) * gridSize, floor(lng / gridSize) *
gridSize)`; a report is stored in a cell exactly when it is an input report
whose key equals the cell's key, and two reports land in the same cell if
and only if their floored coordinate values (equivalently, the floor
integers themselves) agree exactly — not their original coordinates. -/
theorem cell_assignment_spec (reports : List HazardReport) :
    (∀ r : HazardReport, cellKey r =
      ((⌊r.lat / gridSize⌋ : ℚ) * gridSize,
       (⌊r.lng / gridSize⌋ : ℚ) * gridSize)) ∧
    (∀ (k : ℚ × ℚ) (c : GridCell), (k, c) ∈ buildGrid reports →
      ∀ r : HazardReport, r ∈ c.reports ↔ r ∈ reports ∧ cellKey r = k) ∧
    (∀ r1 r2 : HazardReport, cellKey r1 = cellKey r2 ↔
      ((⌊r1.lat / gridSize⌋ : ℚ) * gridSize
          = (⌊r2.lat / gridSize⌋ : ℚ) * gridSize ∧
       (⌊r1.lng / gridSize⌋ : ℚ) * gridSize
          = (⌊r2.lng / gridSize⌋ : ℚ) * gridSize)) ∧
    (∀ r1 r2 : HazardReport, cellKey r1 = cellKey r2 ↔
      (⌊r1.lat / gridSize⌋ = ⌊r2.lat / gridSize⌋ ∧
       ⌊r1.lng / gridSize⌋ = ⌊r2.lng / gridSize⌋)) := by
  have hg : gridSize ≠ 0 := by norm_num [gridSize]
  refine ⟨fun r => rfl, ?_, ?_, ?_⟩
  · intro k c hc r
    obtain ⟨hrep, _, _⟩ := buildGrid_entry hc
    rw [hrep, List.mem_filter, inCell, decide_eq_true_eq]
  · intro r1 r2
    rw [cellKey, cellKey, Prod.ext_iff]
  · intro r1 r2
    rw [cellKey, cellKey, Prod.ext_iff]
    show (_ ∧ _) ↔ _
    rw [mul_left_inj' hg, mul_left_inj' hg, Int.cast_inj, Int.cast_inj]

/-- C5 witness: instantiated on the demo inputs — `lowReportA` is stored in
the demo cell, and the two demo reports (with different raw coordinates)
share a cell because their floor values agree. -/
theorem cell_assignment_spec_witness :
    (lowReportA ∈ lowCell.reports ↔
      lowReportA ∈ lowReports ∧ cellKey lowReportA = demoKey) ∧
    (cellKey demoReportA = cellKey demoReportB ↔
      (⌊demoReportA.lat / gridSize⌋ = ⌊demoReportB.lat / gridSize⌋ ∧
       ⌊demoReportA.lng / gridSize⌋ = ⌊demoReportB.lng / gridSize⌋)) :=
  ⟨(cell_assignment_spec lowReports).2.1 demoKey lowCell lowCell_mem lowReportA,
   (cell_assignment_spec lowReports).2.2.2 demoReportA demoReportB⟩

/-- C9: on inputs whose coordinates are in the data-model ranges
(`lat ∈ [-90, 90]`, `lng ∈ [-180, 180]`), both operations are pure total
functions: `calculateHotspots` always produces a result list (whose members
all satisfy the emission threshold), and `nearbyHotspot` always produces
either `none` or one of the hotspots it was given — there is no error
outcome. -/
theorem clusterer_total (reports : List HazardReport) (p : GeoPoint)
    (hs : List Hotspot)
    (hrange : ∀ r ∈ reports,
      -90 ≤ r.lat ∧ r.lat ≤ 90 ∧ -180 ≤ r.lng ∧ r.lng ≤ 180) :
    (∃ out : List Hotspot, calculateHotspots reports = out ∧
      ∀ h ∈ out, minReports ≤ h.intensity) ∧
    (nearbyHotspot p hs = none ∨ ∃ h ∈ hs, nearbyHotspot p hs = some h) := by
  constructor
  · refine ⟨calculateHotspots reports, rfl, ?_⟩
    intro h hm
    obtain ⟨k, hc, rfl⟩ := mem_calculateHotspots.mp hm
    exact hc
  · rcases hfind : nearbyHotspot p hs with _ | h
    · exact Or.inl rfl
    · rw [nearbyHotspot] at hfind
      exact Or.inr ⟨h, List.mem_of_find?_eq_some hfind, rfl⟩

/-- C9 witness: totality at the concrete demo input. -/
theorem clusterer_total_witness :
    (∃ out : List Hotspot, calculateHotspots demoReports = out ∧
      ∀ h ∈ out, minReports ≤ h.intensity) ∧
    (nearbyHotspot demoPoint [demoHotspot] = none ∨
      ∃ h ∈ [demoHotspot], nearbyHotspot demoPoint [demoHotspot] = some h) :=
  clusterer_total demoReports demoPoint [demoHotspot] (by
    intro r hr
    rcases List.mem_cons.mp hr with rfl | hr'
    · norm_num [demoReportA]
    · rcases List.mem_cons.mp hr' with rfl | hr''
      · norm_num [demoReportB]
      · cases hr'')

theorem sqrt_lt_threshold_iff (d : ℚ) :
    Real.sqrt (d : ℝ) < 0.05 ↔ d < 1 / 400 := by
  rw [Real.sqrt_lt' (by norm_num : (0 : ℝ) < 0.05),
    show ((0.05 : ℝ)) ^ 2 = ((1 / 400 : ℚ) : ℝ) by norm_num,
    Rat.cast_lt]

theorem near_decide_iff (p : GeoPoint) (h : Hotspot) :
    (decide (hotspotDistSq h p < 1 / 400) = true) ↔
      Real.sqrt (((h.lat : ℝ) - (p.lat : ℝ)) ^ 2
        + ((h.lng : ℝ) - (p.lng : ℝ)) ^ 2) < 0.05 := by
  rw [decide_eq_true_eq]
  have hcast : ((hotspotDistSq h p : ℚ) : ℝ)
      = ((h.lat : ℝ) - (p.lat : ℝ)) ^ 2 + ((h.lng : ℝ) - (p.lng : ℝ)) ^ 2 := by
    rw [hotspotDistSq]
    push_cast
    ring
  rw [← hcast, sqrt_lt_threshold_iff]

theorem find?_first {α : Type} (f : α → Bool) :
    ∀ (l : List α) (a : α), l.find? f = some a →
      ∃ l1 l2, l = l1 ++ a :: l2 ∧ ∀ x ∈ l1, f x = false
  | [], a, h => by cases h
  | x :: l, a, h => by
    by_cases hx : f x
    · rw [List.find?_cons_of_pos _ hx] at h
      obtain rfl := Option.some.inj h
      exact ⟨[], l, by simp, by simp⟩
    · rw [List.find?_cons_of_neg _ hx] at h
      obtain ⟨l1, l2, hl, hl1⟩ := find?_first f l a h
      refine ⟨x :: l1, l2, by rw [hl]; rfl, ?_⟩
      intro y hy
      rcases List.mem_cons.mp hy with rfl | hy'
      · simpa using hx
      · exact hl1 y hy'

/-- C7: `nearbyHotspot` returns the first hotspot (in input order) whose
Euclidean degree-space distance `sqrt((h.lat - p.lat)^2 + (h.lng - p.lng)^2)`
to the point is strictly below the `0.05`-degree threshold — every hotspot
before it fails the test, so the result is the first qualifying hotspot, not
necessarily the closest — and returns `none` exactly when no hotspot
qualifies. -/
theorem nearbyHotspot_spec (p : GeoPoint) (hs : List Hotspot) :
    (nearbyHotspot p hs = none ↔ ∀ h ∈ hs,
      ¬ Real.sqrt (((h.lat : ℝ) - (p.lat : ℝ)) ^ 2
        + ((h.lng : ℝ) - (p.lng : ℝ)) ^ 2) < 0.05) ∧
    ∀ h : Hotspot, nearbyHotspot p hs = some h →
      Real.sqrt (((h.lat : ℝ) - (p.lat : ℝ)) ^ 2
        + ((h.lng : ℝ) - (p.lng : ℝ)) ^ 2) < 0.05 ∧
      ∃ l1 l2, hs = l1 ++ h :: l2 ∧ ∀ h' ∈ l1,
        ¬ Real.sqrt (((h'.lat : ℝ) - (p.lat : ℝ)) ^ 2
          + ((h'.lng : ℝ) - (p.lng : ℝ)) ^ 2) < 0.05 := by
  constructor
  · rw [nearbyHotspot, List.find?_eq_none]
    constructor
    · intro hnone h hm hlt
      exact hnone h hm ((near_decide_iff p h).mpr hlt)
    · intro hall h hm hdec
      exact hall h hm ((near_decide_iff p h).mp hdec)
  · intro h hfind
    rw [nearbyHotspot] at hfind
    have hp := @List.find?_some Hotspot
      (fun h' => decide (hotspotDistSq h' p < 1 / 400)) h hs hfind
    have h1 := (near_decide_iff p h).mp hp
    obtain ⟨l1, l2, hl, hl1⟩ := find?_first _ hs h hfind
    refine ⟨h1, l1, l2, hl, ?_⟩
    intro h' hmem hlt
    have := (near_decide_iff p h').mpr hlt
    rw [hl1 h' hmem] at this
    cases this

/-- C7 witness: at the demo hotspot's own center the distance is `0 < 0.05`,
and `nearbyHotspot` returns that hotspot as the first qualifying one. -/
theorem nearbyHotspot_spec_witness :
    Real.sqrt (((demoHotspot.lat : ℝ) - (demoPoint.lat : ℝ)) ^ 2
      + ((demoHotspot.lng : ℝ) - (demoPoint.lng : ℝ)) ^ 2) < 0.05 ∧
    ∃ l1 l2, [demoHotspot] = l1 ++ demoHotspot :: l2 ∧ ∀ h' ∈ l1,
      ¬ Real.sqrt (((h'.lat : ℝ) - (demoPoint.lat : ℝ)) ^ 2
        + ((h'.lng : ℝ) - (demoPoint.lng : ℝ)) ^ 2) < 0.05 :=
  (nearbyHotspot_spec demoPoint [demoHotspot]).2 demoHotspot
    (by with_unfolding_all rfl)

theorem center_eq_iff {k k' : ℚ × ℚ} :
    (k'.1 + gridSize / 2 = k.1 + gridSize / 2 ∧
     k'.2 + gridSize / 2 = k.2 + gridSize / 2) ↔ k' = k := by
  rw [add_left_inj, add_left_inj, ← Prod.ext_iff]

theorem countP_center_aux (reports : List HazardReport) (k : ℚ × ℚ) :
    ∀ ks : List (ℚ × ℚ), ks.Nodup →
      ((ks.filterMap fun k' =>
          if minReports ≤ cellCount reports k' then
            some (hotspotOfCell reports k')
          else none).countP
        fun h => decide (h.lat = k.1 + gridSize / 2 ∧
          h.lng = k.2 + gridSize / 2))
      = if k ∈ ks ∧ minReports ≤ cellCount reports k then 1 else 0
  | [], _ => by simp
  | k' :: ks, hnd => by
    obtain ⟨hk'notin, hndks⟩ := List.nodup_cons.mp hnd
    have ih := countP_center_aux reports k ks hndks
    rw [List.filterMap_cons]
    by_cases hc' : minReports ≤ cellCount reports k'
    · rw [if_pos hc', List.countP_cons, ih]
      by_cases hkk : k' = k
      · subst hkk
        have hP : (decide ((hotspotOfCell reports k').lat
              = k'.1 + gridSize / 2 ∧
            (hotspotOfCell reports k').lng = k'.2 + gridSize / 2)) = true := by
          rw [decide_eq_true_eq]
          exact ⟨rfl, rfl⟩
        rw [hP, if_pos rfl,
          if_neg (fun hh => hk'notin hh.1),
          if_pos ⟨List.mem_cons_self k' ks, hc'⟩]
      · have hP : (decide ((hotspotOfCell reports k').lat
              = k.1 + gridSize / 2 ∧
            (hotspotOfCell reports k').lng = k.2 + gridSize / 2)) = false := by
          rw [decide_eq_false_iff_not]
          exact fun hh => hkk (center_eq_iff.mp hh)
        have hmem : (k ∈ k' :: ks) ↔ k ∈ ks := by
          rw [List.mem_cons]
          exact ⟨fun hh => hh.elim (fun he => absurd he.symm hkk) id, Or.inr⟩
        rw [hP, if_neg Bool.false_ne_true, Nat.add_zero,
          if_congr (and_congr_left fun _ => hmem) rfl rfl]
    · rw [if_neg hc', ih]
      by_cases hkk : k' = k
      · subst hkk
        rw [if_neg (fun hh => hc' hh.2), if_neg (fun hh => hc' hh.2)]
      · have hmem : (k ∈ k' :: ks) ↔ k ∈ ks := by
          rw [List.mem_cons]
          exact ⟨fun hh => hh.elim (fun he => absurd he.symm hkk) id, Or.inr⟩
        rw [if_congr (and_congr_left fun _ => hmem) rfl rfl]

/-- C3: for every input report collection and every grid key,
`calculateHotspots` emits exactly one hotspot centered on that cell when the
cell holds at least `minReports` (= 2) reports and none otherwise, and any
hotspot centered on that cell carries `intensity` and `reportCount` equal to
the number of reports in the cell. -/
theorem hotspot_exists_iff_threshold (reports : List HazardReport)
    (k : ℚ × ℚ) :
    ((calculateHotspots reports).countP
      fun h => decide (h.lat = k.1 + gridSize / 2 ∧
        h.lng = k.2 + gridSize / 2))
      = (if minReports ≤ cellCount reports k then 1 else 0) ∧
    ∀ h ∈ calculateHotspots reports,
      h.lat = k.1 + gridSize / 2 → h.lng = k.2 + gridSize / 2 →
      h.intensity = cellCount reports k ∧
      h.reportCount = cellCount reports k := by
  constructor
  · rw [calculateHotspots_eq,
      countP_center_aux reports k _ (buildGrid_keys_nodup reports)]
    by_cases hc : minReports ≤ cellCount reports k
    · rw [if_pos hc, if_pos ⟨mem_keys_iff.mpr (exists_report_of_cellCount_pos
        (lt_of_lt_of_le (by norm_num [minReports]) hc)), hc⟩]
    · rw [if_neg hc, if_neg (fun hh => hc hh.2)]
  · intro h hm hlat hlng
    obtain ⟨k', hc', rfl⟩ := mem_calculateHotspots.mp hm
    have hk : k' = k := center_eq_iff.mp ⟨hlat, hlng⟩
    subst hk
    exact ⟨rfl, rfl⟩

/-- C3 witness: the demo cell holds 2 ≥ `minReports` reports, so exactly one
hotspot is centered there, with intensity and report count 2. -/
theorem hotspot_exists_iff_threshold_witness :
    ((calculateHotspots demoReports).countP
      fun h => decide (h.lat = demoKey.1 + gridSize / 2 ∧
        h.lng = demoKey.2 + gridSize / 2))
      = (if minReports ≤ cellCount demoReports demoKey then 1 else 0) ∧
    (demoHotspot.intensity = cellCount demoReports demoKey ∧
     demoHotspot.reportCount = cellCount demoReports demoKey) :=
  ⟨(hotspot_exists_iff_threshold demoReports demoKey).1,
   (hotspot_exists_iff_threshold demoReports demoKey).2 demoHotspot demo_mem
     (by norm_num [demoHotspot, demoKey, gridSize])
     (by norm_num [demoHotspot, demoKey, gridSize])⟩

/-- C8: the multiset of hotspots is fully determined by the input report
multiset — permuting the input reports permutes the output hotspot list
(same multiset), and recomputation on identical input yields identical
output. -/
theorem calculateHotspots_perm (r1 r2 : List HazardReport)
    (hp : r1.Perm r2) :
    (calculateHotspots r1).Perm (calculateHotspots r2) ∧
    calculateHotspots r1 = calculateHotspots r1 := by
  refine ⟨?_, rfl⟩
  have hcount : ∀ k, cellCount r1 k = cellCount r2 k := fun k =>
    (hp.filter (inCell k)).length_eq
  have hkeys : ∀ k, k ∈ (buildGrid r1).map Prod.fst ↔
      k ∈ (buildGrid r2).map Prod.fst := by
    intro k
    rw [mem_keys_iff, mem_keys_iff]
    constructor <;> rintro ⟨r, hr, hkr⟩
    · exact ⟨r, hp.mem_iff.mp hr, hkr⟩
    · exact ⟨r, hp.mem_iff.mpr hr, hkr⟩
  have hkperm : ((buildGrid r1).map Prod.fst).Perm
      ((buildGrid r2).map Prod.fst) :=
    (List.perm_ext_iff_of_nodup (buildGrid_keys_nodup r1)
      (buildGrid_keys_nodup r2)).mpr hkeys
  rw [calculateHotspots_eq r1, calculateHotspots_eq r2]
  have hfun : ∀ k : ℚ × ℚ,
      (if minReports ≤ cellCount r1 k then some (hotspotOfCell r1 k)
        else none)
      = (if minReports ≤ cellCount r2 k then some (hotspotOfCell r2 k)
        else none) := by
    intro k
    have h2 : hotspotOfCell r1 k = hotspotOfCell r2 k := by
      rw [hotspotOfCell, hotspotOfCell, hcount k]
    rw [hcount k, h2]
  have heq : ((buildGrid r2).map Prod.fst).filterMap
        (fun k => if minReports ≤ cellCount r1 k
          then some (hotspotOfCell r1 k) else none)
      = ((buildGrid r2).map Prod.fst).filterMap
        (fun k => if minReports ≤ cellCount r2 k
          then some (hotspotOfCell r2 k) else none) :=
    List.filterMap_congr fun k _ => hfun k
  exact heq ▸ hkperm.filterMap _

/-- C8 witness: swapping the two demo reports leaves the hotspot multiset
unchanged. -/
theorem calculateHotspots_perm_witness :
    (calculateHotspots demoReports).Perm
      (calculateHotspots [demoReportB, demoReportA]) :=
  (calculateHotspots_perm demoReports [demoReportB, demoReportA]
    (List.Perm.swap demoReportB demoReportA [])).1

end CoastAlert
